import Mathlib

/-
Shallow embedding of the reference-resolution core of django-bibletext
(bibletext/models/bibles.py).

Modelling conventions:
  * A stored verse record (a row of a VerseText table) is a `Row` carrying its
    primary key `pk` together with the book id, chapter, verse number and text.
    For a fully populated translation the rows are created in canonical
    traversal order with sequential primary keys starting at 1, which
    `assignPks 1 data` builds explicitly.
  * The external python-bible collaborator is kept abstract: `parse` stands for
    `bible.Verse(reference)` (returning book/chapter/verse, or failing), and
    `plen` stands for `len(bible.Passage(a, b))` (the spanned verse count, or
    failing).  Theorems quantify over these functions; witnesses instantiate
    them with concrete tables.
  * Python exceptions become the `PyErr` error type of an `Except` result:
    `indexError` for IndexError (negative string indexing out of range),
    `invalidReference` for a parse failure inside python-bible,
    `doesNotExist` for Django DoesNotExist (the NotFound of the spec), and
    `multipleObjectsReturned` for Django MultipleObjectsReturned.
  * Django query operations are modelled on lists of rows: `pyGet` is
    `QuerySet.get` (exactly one match, else an error), `orderById` is
    `order_by` on the primary key, `filter`/`take` are `filter(pk__gte=...)`
    and Python slicing.  The per-instance memoisation caches of
    `next_verse`/`prev_verse` are omitted: they only cache the pure lookup
    that is modelled here.
-/

structure VerseData where
  book : Nat
  chapter : Nat
  verse : Nat
  text : String
deriving DecidableEq

structure Row where
  pk : Nat
  book : Nat
  chapter : Nat
  verse : Nat
  text : String
deriving DecidableEq

/-- Result of `bible.Verse(reference)`: the parsed book, chapter and verse. -/
structure ParsedVerse where
  book : Nat
  chapter : Nat
  verse : Nat
deriving DecidableEq

inductive PyErr where
  | indexError
  | invalidReference
  | doesNotExist
  | multipleObjectsReturned
deriving DecidableEq

/-- Build the row a verse-data record produces when saved with primary key `pk`. -/
def mkRow (pk : Nat) (d : VerseData) : Row :=
  { pk := pk, book := d.book, chapter := d.chapter, verse := d.verse, text := d.text }

/-- A translation table populated in order: the i-th data record gets primary
key `k + i`.  `assignPks 1 data` is the fully populated store whose primary
keys are the verse ordinals 1, 2, ... of the spec. -/
def assignPks : Nat → List VerseData → List Row
  | _, [] => []
  | k, d :: ds => mkRow k d :: assignPks (k + 1) ds

/-- Python `s[-3]`: the character at index `len(s) - 3`, an IndexError (here
`none`) when the string is shorter than 3 characters. -/
def pyCharAtNeg3 (s : String) : Option Char :=
  if 3 ≤ s.length then s.data.get? (s.length - 3) else none

/-- The qualification step shared by `verse` and `passage`:

    if self.model.translation and reference[-3] != self.model.translation:
        reference += ' ' + self.model.translation

`translation = none` models `translation = None`; an empty code is falsy in
Python, so it is also skipped.  Note that `reference[-3]` is a single
character compared against the whole translation code string. -/
def qualifyRef (translation : Option String) (reference : String) : Except PyErr String :=
  match translation with
  | none => Except.ok reference
  | some t =>
    if t = "" then Except.ok reference
    else
      match pyCharAtNeg3 reference with
      | none => Except.error PyErr.indexError
      | some c =>
        if String.mk [c] = t then Except.ok reference
        else Except.ok (reference ++ " " ++ t)

/-- The lookup predicate of `get(book__pk=verse.book, chapter=verse.chapter,
verse=verse.verse)`. -/
def matchRow (pv : ParsedVerse) (r : Row) : Bool :=
  decide (r.book = pv.book ∧ r.chapter = pv.chapter ∧ r.verse = pv.verse)

/-- Django `QuerySet.get`: exactly one row may match, otherwise DoesNotExist
or MultipleObjectsReturned is raised. -/
def pyGet (p : Row → Bool) (store : List Row) : Except PyErr Row :=
  match store.filter p with
  | [] => Except.error PyErr.doesNotExist
  | [r] => Except.ok r
  | _ :: _ :: _ => Except.error PyErr.multipleObjectsReturned

def insertById (r : Row) : List Row → List Row
  | [] => [r]
  | x :: xs => if r.pk ≤ x.pk then r :: x :: xs else x :: insertById r xs

/-- `order_by('id')`: sort the stored rows by primary key. -/
def orderById : List Row → List Row
  | [] => []
  | x :: xs => insertById x (orderById xs)

/-- `in_the_beginning = 'Genesis 1:1'`, plus the translation code whenever the
model has a truthy one (this append is unconditional, with no `[-3]` check). -/
def beginningRef (translation : Option String) : String :=
  match translation with
  | none => "Genesis 1:1"
  | some t => if t = "" then "Genesis 1:1" else "Genesis 1:1" ++ " " ++ t

/-- `if not end_reference: end_reference = start_reference` - Python truthiness
replaces both a missing and an empty end reference by the start reference. -/
def effectiveEnd (startReference : String) : Option String → String
  | none => startReference
  | some e => if e = "" then startReference else e

/-- `BiblePassageManager.verse`: qualify the reference, parse it with
`bible.Verse`, then `get` the row by (book, chapter, verse). -/
def BiblePassageManager.verse (translation : Option String) (store : List Row)
    (parse : String → Option ParsedVerse) (reference : String) : Except PyErr Row :=
  match qualifyRef translation reference with
  | Except.error e => Except.error e
  | Except.ok ref =>
    match parse ref with
    | none => Except.error PyErr.invalidReference
    | some pv => pyGet (matchRow pv) store

/-- `BiblePassageManager.passage`: default the end reference, qualify both,
let the external parser count the passage span `n` and the span from
Genesis 1:1 to the start reference (the ordinal `start_pk`), then return

    get_query_set().order_by('id').filter(pk__gte=start_pk)[:n]
-/
def BiblePassageManager.passage (translation : Option String) (store : List Row)
    (plen : String → String → Option Nat)
    (startReference : String) (endReference : Option String) : Except PyErr (List Row) :=
  let endRef := effectiveEnd startReference endReference
  match qualifyRef translation startReference with
  | Except.error e => Except.error e
  | Except.ok s =>
    match qualifyRef translation endRef with
    | Except.error e => Except.error e
    | Except.ok e =>
      match plen s e with
      | none => Except.error PyErr.invalidReference
      | some n =>
        match plen (beginningRef translation) s with
        | none => Except.error PyErr.invalidReference
        | some startPk =>
          Except.ok (((orderById store).filter (fun r => decide (startPk ≤ r.pk))).take n)

/-- `VerseText.next_verse`: `get(pk=self.pk+1)`, with DoesNotExist caught and
turned into the `none` sentinel (any other exception propagates). -/
def VerseText.next_verse (store : List Row) (v : Row) : Except PyErr (Option Row) :=
  match pyGet (fun r => decide (r.pk = v.pk + 1)) store with
  | Except.ok r => Except.ok (some r)
  | Except.error PyErr.doesNotExist => Except.ok none
  | Except.error e => Except.error e

/-- `VerseText.prev_verse`: the Genesis 1:1 case is checked explicitly and
returns the sentinel without any lookup; otherwise `get(pk=self.pk-1)` is
performed with NO exception handler, so a failed lookup propagates. -/
def VerseText.prev_verse (store : List Row) (v : Row) : Except PyErr (Option Row) :=
  if v.book = 1 ∧ v.chapter = 1 ∧ v.verse = 1 then
    Except.ok none
  else
    match pyGet (fun r => decide (r.pk = v.pk - 1)) store with
    | Except.ok r => Except.ok (some r)
    | Except.error e => Except.error e

/-- One step of `VerseText.register_version`: the ContentType pk of a version
is appended to `cls.versions` only when it is not already present. -/
def registerOne (versions : List Nat) (pk : Nat) : List Nat :=
  if pk ∈ versions then versions else versions ++ [pk]

/-- `VerseText.register_version(*versions)`: create `cls.versions` as `[]`
when the attribute does not exist yet (the `Option` state), then register the
ContentType pk of every argument in order. -/
def register_version (current : Option (List Nat)) (pks : List Nat) : List Nat :=
  pks.foldl registerOne (current.getD [])

/-- Modelled from the spec, for comparison only (claim C2): the qualifier
detection the spec describes, namely the last non-space word token of the
reference text.  The source code has no such computation. -/
def specLastWordToken (text : String) : Option String :=
  let rev := (text.data.reverse).dropWhile (fun c => c = ' ')
  let tok := rev.takeWhile (fun c => c ≠ ' ')
  if tok = [] then none else some (String.mk tok.reverse)

/-- The row range `passage` materialises on a fully populated store: the rows
with primary keys `startPk, startPk+1, ...`, at most `n` of them. -/
def passageSlice (ds : List VerseData) (startPk n : Nat) : List Row :=
  assignPks startPk ((ds.drop (startPk - 1)).take n)

/-- A small fully populated sample translation used by the witnesses. -/
def sampleData : List VerseData :=
  [⟨1, 1, 1, "In the beginning"⟩, ⟨1, 1, 2, "And the earth"⟩, ⟨1, 1, 3, "And God said"⟩]

instance {ε α : Type} [DecidableEq ε] [DecidableEq α] : DecidableEq (Except ε α) := fun a b =>
  match a, b with
  | Except.ok x, Except.ok y => decidable_of_iff (x = y) (by simp)
  | Except.error x, Except.error y => decidable_of_iff (x = y) (by simp)
  | Except.ok _, Except.error _ => Decidable.isFalse (by simp)
  | Except.error _, Except.ok _ => Decidable.isFalse (by simp)

@[simp] theorem mkRow_pk (k : Nat) (d : VerseData) : (mkRow k d).pk = k := rfl

@[simp] theorem mkRow_book (k : Nat) (d : VerseData) : (mkRow k d).book = d.book := rfl

@[simp] theorem mkRow_chapter (k : Nat) (d : VerseData) : (mkRow k d).chapter = d.chapter := rfl

@[simp] theorem mkRow_verse (k : Nat) (d : VerseData) : (mkRow k d).verse = d.verse := rfl

@[simp] theorem assignPks_nil (k : Nat) : assignPks k [] = [] := rfl

@[simp] theorem assignPks_cons (k : Nat) (d : VerseData) (ds : List VerseData) :
    assignPks k (d :: ds) = mkRow k d :: assignPks (k + 1) ds := rfl

@[simp] theorem assignPks_length (ds : List VerseData) (k : Nat) :
    (assignPks k ds).length = ds.length := by
  induction ds generalizing k with
  | nil => rfl
  | cons d ds ih => simp [ih]

/-- Sortedness of a row list by primary key. -/
def pkSorted : List Row → Prop
  | [] => True
  | [_] => True
  | a :: b :: l => a.pk ≤ b.pk ∧ pkSorted (b :: l)

theorem pkSorted_assignPks (ds : List VerseData) (k : Nat) : pkSorted (assignPks k ds) := by
  induction ds generalizing k with
  | nil => trivial
  | cons d ds ih =>
    cases ds with
    | nil => trivial
    | cons d2 ds2 =>
      exact ⟨Nat.le_succ k, ih (k + 1)⟩

theorem orderById_sorted_eq (l : List Row) (h : pkSorted l) : orderById l = l := by
  induction l with
  | nil => rfl
  | cons a l ih =>
    cases l with
    | nil => rfl
    | cons b l =>
      have hab : a.pk ≤ b.pk := h.1
      have ht : pkSorted (b :: l) := h.2
      show insertById a (orderById (b :: l)) = a :: b :: l
      rw [ih ht]
      simp [insertById, hab]

theorem filter_ge_assignPks_all (ds : List VerseData) (k s : Nat) (h : s ≤ k) :
    (assignPks k ds).filter (fun r => decide (s ≤ r.pk)) = assignPks k ds := by
  induction ds generalizing k with
  | nil => rfl
  | cons d ds ih =>
    simp only [assignPks_cons, List.filter_cons, mkRow_pk, decide_eq_true_eq]
    rw [if_pos h, ih (k + 1) (Nat.le_succ_of_le h)]

theorem filter_ge_assignPks (ds : List VerseData) (k s : Nat) (h : k ≤ s) :
    (assignPks k ds).filter (fun r => decide (s ≤ r.pk)) = assignPks s (ds.drop (s - k)) := by
  induction ds generalizing k with
  | nil => simp
  | cons d ds ih =>
    rcases Nat.eq_or_lt_of_le h with hk | hk
    · subst hk
      simp only [assignPks_cons, List.filter_cons, mkRow_pk, decide_eq_true_eq]
      rw [if_pos (Nat.le_refl k), Nat.sub_self]
      exact congrArg _ (filter_ge_assignPks_all ds (k + 1) k (Nat.le_succ k))
    · have h1 : k + 1 ≤ s := hk
      have hns : ¬ (s ≤ k) := by omega
      simp only [assignPks_cons, List.filter_cons, mkRow_pk, decide_eq_true_eq]
      rw [if_neg hns, ih (k + 1) h1]
      have hsk : s - k = (s - (k + 1)) + 1 := by omega
      rw [hsk]
      rfl

theorem take_assignPks (ds : List VerseData) (k n : Nat) :
    (assignPks k ds).take n = assignPks k (ds.take n) := by
  induction ds generalizing k n with
  | nil => simp
  | cons d ds ih =>
    cases n with
    | zero => rfl
    | succ n => simp [List.take_succ_cons, ih]

theorem map_pk_assignPks (ds : List VerseData) (k : Nat) :
    (assignPks k ds).map Row.pk = List.range' k ds.length := by
  induction ds generalizing k with
  | nil => rfl
  | cons d ds ih => simp [List.range'_succ, ih]

theorem filter_pk_eq_nil (ds : List VerseData) (k j : Nat) (h : j < k) :
    (assignPks k ds).filter (fun r => decide (r.pk = j)) = [] := by
  induction ds generalizing k with
  | nil => rfl
  | cons d ds ih =>
    have hne : ¬ (k = j) := by omega
    simp only [assignPks_cons, List.filter_cons, mkRow_pk, decide_eq_true_eq]
    rw [if_neg hne]
    exact ih (k + 1) (by omega)

theorem filter_pk_eq (ds : List VerseData) (k j : Nat) (d : VerseData)
    (hkj : k ≤ j) (hget : ds.get? (j - k) = some d) :
    (assignPks k ds).filter (fun r => decide (r.pk = j)) = [mkRow j d] := by
  induction ds generalizing k with
  | nil => simp at hget
  | cons d0 ds ih =>
    rcases Nat.eq_or_lt_of_le hkj with hk | hk
    · subst hk
      rw [Nat.sub_self] at hget
      have hd : d0 = d := by simpa using hget
      subst hd
      simp only [assignPks_cons, List.filter_cons, mkRow_pk, decide_eq_true_eq]
      rw [if_pos trivial, filter_pk_eq_nil ds (k + 1) k (by omega)]
    · have h1 : k + 1 ≤ j := hk
      have hsk : j - k = (j - (k + 1)) + 1 := by omega
      rw [hsk] at hget
      have hget2 : ds.get? (j - (k + 1)) = some d := hget
      have hne : ¬ (k = j) := by omega
      simp only [assignPks_cons, List.filter_cons, mkRow_pk, decide_eq_true_eq]
      rw [if_neg hne]
      exact ih (k + 1) h1 hget2

theorem of_mem_assignPks {r : Row} (ds : List VerseData) (k : Nat)
    (h : r ∈ assignPks k ds) : ∃ i d, ds.get? i = some d ∧ r = mkRow (k + i) d := by
  induction ds generalizing k with
  | nil => simp at h
  | cons d0 ds ih =>
    rw [assignPks_cons, List.mem_cons] at h
    rcases h with h | h
    · exact ⟨0, d0, rfl, by simpa using h⟩
    · rcases ih (k + 1) h with ⟨i, d, hget, hr⟩
      refine ⟨i + 1, d, hget, ?_⟩
      rw [hr]
      congr 1
      omega

theorem take_one_drop {α : Type} (ds : List α) (i : Nat) (d : α)
    (h : ds.get? i = some d) : (ds.drop i).take 1 = [d] := by
  induction ds generalizing i with
  | nil => simp at h
  | cons d0 ds ih =>
    cases i with
    | zero =>
      have : d0 = d := by simpa using h
      subst this
      rfl
    | succ i => exact ih i h

theorem lt_of_get?_some {α : Type} {l : List α} {i : Nat} {x : α}
    (h : l.get? i = some x) : i < l.length := by
  induction l generalizing i with
  | nil => simp at h
  | cons a l ih =>
    cases i with
    | zero => simp
    | succ i => simpa using Nat.succ_lt_succ (ih h)

theorem get?_some_of_lt {α : Type} (l : List α) (i : Nat) (h : i < l.length) :
    ∃ x, l.get? i = some x := by
  induction l generalizing i with
  | nil => simp at h
  | cons a l ih =>
    cases i with
    | zero => exact ⟨a, rfl⟩
    | succ i => exact ih i (by simpa using h)

/-- Unfolding of `passage` on the success path: with both references
qualified, the parser reporting span `n` and start ordinal `startPk`, the
result is the ordered, filtered, sliced query. -/
theorem passage_ok (translation : Option String) (store : List Row)
    (plen : String → String → Option Nat) (startRef : String) (endRef : Option String)
    (s e : String) (n startPk : Nat)
    (hqs : qualifyRef translation startRef = Except.ok s)
    (hqe : qualifyRef translation (effectiveEnd startRef endRef) = Except.ok e)
    (hn : plen s e = some n)
    (hpk : plen (beginningRef translation) s = some startPk) :
    BiblePassageManager.passage translation store plen startRef endRef
      = Except.ok (((orderById store).filter (fun r => decide (startPk ≤ r.pk))).take n) := by
  simp only [BiblePassageManager.passage, hqs, hqe, hn, hpk]

/-- On a fully populated store the query materialises as `passageSlice`. -/
theorem passage_full_store (translation : Option String) (ds : List VerseData)
    (plen : String → String → Option Nat) (startRef : String) (endRef : Option String)
    (s e : String) (n startPk : Nat)
    (hqs : qualifyRef translation startRef = Except.ok s)
    (hqe : qualifyRef translation (effectiveEnd startRef endRef) = Except.ok e)
    (hn : plen s e = some n)
    (hpk : plen (beginningRef translation) s = some startPk)
    (h1 : 1 ≤ startPk) :
    BiblePassageManager.passage translation (assignPks 1 ds) plen startRef endRef
      = Except.ok (passageSlice ds startPk n) := by
  rw [passage_ok translation (assignPks 1 ds) plen startRef endRef s e n startPk hqs hqe hn hpk]
  rw [orderById_sorted_eq _ (pkSorted_assignPks ds 1),
    filter_ge_assignPks ds 1 startPk h1, take_assignPks]
  rfl

/-- Claim C1: on a fully populated verse store (sequential primary keys
`1..N` assigned in canonical order, so pk = ordinal), for parseable start
and end references whose span lies within the stored range, `passage`
returns the contiguous ordinal run that starts at the ordinal the external
parser computes by counting from Genesis 1:1 to the start reference
inclusive (`startPk`) and whose length is the parser span count `n`; the
primary keys of the result are exactly `startPk, startPk+1, ...,
startPk+n-1` in ascending order. -/
theorem passage_contiguous_range (translation : Option String) (ds : List VerseData)
    (plen : String → String → Option Nat)
    (startRef endRef s e : String) (n startPk : Nat)
    (hqs : qualifyRef translation startRef = Except.ok s)
    (hend : endRef ≠ "")
    (hqe : qualifyRef translation endRef = Except.ok e)
    (hn : plen s e = some n)
    (hpk : plen (beginningRef translation) s = some startPk)
    (h1 : 1 ≤ startPk)
    (h2 : startPk + n ≤ ds.length + 1) :
    BiblePassageManager.passage translation (assignPks 1 ds) plen startRef (some endRef)
        = Except.ok (passageSlice ds startPk n)
      ∧ (passageSlice ds startPk n).length = n
      ∧ (passageSlice ds startPk n).map Row.pk = List.range' startPk n := by
  have heff : effectiveEnd startRef (some endRef) = endRef := by
    simp [effectiveEnd, hend]
  have hlen : (passageSlice ds startPk n).length = n := by
    rw [passageSlice, assignPks_length, List.length_take, List.length_drop]
    omega
  refine ⟨?_, hlen, ?_⟩
  · exact passage_full_store translation ds plen startRef (some endRef) s e n startPk hqs
      (by rw [heff]; exact hqe) hn hpk h1
  · rw [passageSlice, map_pk_assignPks]
    have : ((ds.drop (startPk - 1)).take n).length = n := by
      rw [List.length_take, List.length_drop]
      omega
    rw [this]

/-- Claim C1 witness. -/
theorem passage_contiguous_range_witness :
    BiblePassageManager.passage none (assignPks 1 sampleData)
        (fun a b =>
          if a = "Genesis 1:2" then (if b = "Genesis 1:3" then some 2 else none)
          else if a = "Genesis 1:1" then (if b = "Genesis 1:2" then some 2 else none) else none)
        "Genesis 1:2" (some "Genesis 1:3")
        = Except.ok (passageSlice sampleData 2 2)
      ∧ (passageSlice sampleData 2 2).length = 2
      ∧ (passageSlice sampleData 2 2).map Row.pk = List.range' 2 2 :=
  passage_contiguous_range none sampleData _ "Genesis 1:2" "Genesis 1:3" "Genesis 1:2"
    "Genesis 1:3" 2 2 (by decide) (by decide) (by decide) (by decide) (by decide)
    (by decide) (by decide)

/-- Claim C3 counterexample: the claim demands a NotFound failure when the
range `[startPk, startPk+n-1]` exceeds the stored verse count.  Here the
store holds 3 verses, the parser reports a span of 5 starting at ordinal 2,
and `passage` nevertheless succeeds, silently truncating to the 2 stored
rows - Python slicing never raises. -/
theorem passage_overflow_example :
    BiblePassageManager.passage none (assignPks 1 sampleData)
        (fun a b =>
          if a = "Genesis 1:2" then (if b = "Genesis 2:3" then some 5 else none)
          else if a = "Genesis 1:1" then (if b = "Genesis 1:2" then some 2 else none) else none)
        "Genesis 1:2" (some "Genesis 2:3")
        = Except.ok [mkRow 2 ⟨1, 1, 2, "And the earth"⟩, mkRow 3 ⟨1, 1, 3, "And God said"⟩]
    ∧ BiblePassageManager.passage none (assignPks 1 sampleData)
        (fun a b =>
          if a = "Genesis 1:2" then (if b = "Genesis 2:3" then some 5 else none)
          else if a = "Genesis 1:1" then (if b = "Genesis 1:2" then some 2 else none) else none)
        "Genesis 1:2" (some "Genesis 2:3")
        ≠ Except.error PyErr.doesNotExist := by
  decide

/-- Claim C3 amended: when the computed ordinal range extends beyond the
stored verse count, `passage` does NOT fail; it returns the truncated result
holding only the stored tail, of length `N + 1 - startPk`, strictly shorter
than the requested span `n`. -/
theorem passage_overflow_truncates (translation : Option String) (ds : List VerseData)
    (plen : String → String → Option Nat)
    (startRef endRef s e : String) (n startPk : Nat)
    (hqs : qualifyRef translation startRef = Except.ok s)
    (hend : endRef ≠ "")
    (hqe : qualifyRef translation endRef = Except.ok e)
    (hn : plen s e = some n)
    (hpk : plen (beginningRef translation) s = some startPk)
    (h1 : 1 ≤ startPk)
    (hn1 : 1 ≤ n)
    (hover : ds.length + 1 < startPk + n) :
    BiblePassageManager.passage translation (assignPks 1 ds) plen startRef (some endRef)
        = Except.ok (passageSlice ds startPk n)
      ∧ (passageSlice ds startPk n).length = ds.length + 1 - startPk
      ∧ (passageSlice ds startPk n).length < n := by
  have heff : effectiveEnd startRef (some endRef) = endRef := by
    simp [effectiveEnd, hend]
  have hlen : (passageSlice ds startPk n).length = ds.length + 1 - startPk := by
    rw [passageSlice, assignPks_length, List.length_take, List.length_drop]
    have hmin : ds.length - (startPk - 1) ≤ n := by omega
    rw [min_eq_right hmin]
    omega
  refine ⟨?_, hlen, ?_⟩
  · exact passage_full_store translation ds plen startRef (some endRef) s e n startPk hqs
      (by rw [heff]; exact hqe) hn hpk h1
  · rw [hlen]
    omega

/-- Claim C3 amended witness. -/
theorem passage_overflow_truncates_witness :
    BiblePassageManager.passage none (assignPks 1 sampleData)
        (fun a b =>
          if a = "Genesis 1:3" then (if b = "Genesis 2:3" then some 4 else none)
          else if a = "Genesis 1:1" then (if b = "Genesis 1:3" then some 3 else none) else none)
        "Genesis 1:3" (some "Genesis 2:3")
        = Except.ok (passageSlice sampleData 3 4)
      ∧ (passageSlice sampleData 3 4).length = sampleData.length + 1 - 3
      ∧ (passageSlice sampleData 3 4).length < 4 :=
  passage_overflow_truncates none sampleData _ "Genesis 1:3" "Genesis 2:3" "Genesis 1:3"
    "Genesis 2:3" 4 3 (by decide) (by decide) (by decide) (by decide) (by decide)
    (by decide) (by decide) (by decide)

/-- Claim C5 counterexample: the claim demands InvalidReference when the
parser computes a non-positive passage length.  With a parser reporting
length 0, `passage` instead returns the empty sequence successfully. -/
theorem passage_zero_length_example :
    BiblePassageManager.passage none [mkRow 1 ⟨1, 1, 1, "In the beginning"⟩]
        (fun _ _ => some 0) "Genesis 1:1" (some "Genesis 1:1") = Except.ok []
    ∧ BiblePassageManager.passage none [mkRow 1 ⟨1, 1, 1, "In the beginning"⟩]
        (fun _ _ => some 0) "Genesis 1:1" (some "Genesis 1:1")
        ≠ Except.error PyErr.invalidReference := by
  decide

/-- Claim C5 amended: when the external parser computes passage length 0,
`passage` returns the empty sequence, not an InvalidReference failure.  (A
negative length cannot arise at all: the length is a Python `len`, which is
non-negative.) -/
theorem passage_zero_length (translation : Option String) (store : List Row)
    (plen : String → String → Option Nat) (startRef : String) (endRef : Option String)
    (s e : String) (startPk : Nat)
    (hqs : qualifyRef translation startRef = Except.ok s)
    (hqe : qualifyRef translation (effectiveEnd startRef endRef) = Except.ok e)
    (h0 : plen s e = some 0)
    (hpk : plen (beginningRef translation) s = some startPk) :
    BiblePassageManager.passage translation store plen startRef endRef = Except.ok [] := by
  rw [passage_ok translation store plen startRef endRef s e 0 startPk hqs hqe h0 hpk]
  rfl

/-- Claim C5 amended witness. -/
theorem passage_zero_length_witness :
    BiblePassageManager.passage none [mkRow 1 ⟨1, 1, 1, "In the beginning"⟩]
      (fun _ _ => some 0) "Genesis 1:1" none = Except.ok [] :=
  passage_zero_length none [mkRow 1 ⟨1, 1, 1, "In the beginning"⟩] (fun _ _ => some 0)
    "Genesis 1:1" none "Genesis 1:1" "Genesis 1:1" 0 rfl rfl rfl rfl

/-- Claim C6: on a fully populated store, a single-verse passage request -
with the end reference equal to the start reference, or omitted - returns
exactly the one-element sequence holding the verse that `verse` resolves for
the same reference.  The hypotheses tie the abstract external parser to the
store: the reference parses to a triple stored in exactly one row `vrow`,
the parser reports span 1 for the degenerate passage, and counting from
Genesis 1:1 to the reference yields the primary key of `vrow`. -/
theorem single_verse_passage (translation : Option String) (ds : List VerseData)
    (parse : String → Option ParsedVerse) (plen : String → String → Option Nat)
    (r s : String) (pv : ParsedVerse) (vrow : Row) (p : Nat)
    (hq : qualifyRef translation r = Except.ok s)
    (hparse : parse s = some pv)
    (hfilt : (assignPks 1 ds).filter (matchRow pv) = [vrow])
    (hpk : vrow.pk = p)
    (h1 : plen s s = some 1)
    (hp : plen (beginningRef translation) s = some p) :
    BiblePassageManager.verse translation (assignPks 1 ds) parse r = Except.ok vrow
    ∧ BiblePassageManager.passage translation (assignPks 1 ds) plen r none = Except.ok [vrow]
    ∧ BiblePassageManager.passage translation (assignPks 1 ds) plen r (some r)
        = Except.ok [vrow] := by
  have hmemf : vrow ∈ (assignPks 1 ds).filter (matchRow pv) := by
    rw [hfilt]
    exact List.mem_singleton.mpr rfl
  have hmem : vrow ∈ assignPks 1 ds := List.mem_of_mem_filter hmemf
  rcases of_mem_assignPks ds 1 hmem with ⟨i, d, hget, hr⟩
  have hp1 : p = 1 + i := by rw [← hpk, hr, mkRow_pk]
  have h1p : 1 ≤ p := by omega
  have hslice : passageSlice ds p 1 = [vrow] := by
    rw [passageSlice]
    have hip : p - 1 = i := by omega
    rw [hip, take_one_drop ds i d hget]
    rw [hr, hp1]
    rfl
  have hpassage : ∀ endRef : Option String,
      effectiveEnd r endRef = r →
      BiblePassageManager.passage translation (assignPks 1 ds) plen r endRef
        = Except.ok [vrow] := by
    intro endRef heff
    rw [← hslice]
    exact passage_full_store translation ds plen r endRef s s 1 p hq
      (by rw [heff]; exact hq) h1 hp h1p
  refine ⟨?_, hpassage none rfl, hpassage (some r) (by simp [effectiveEnd])⟩
  simp [BiblePassageManager.verse, hq, hparse, pyGet, hfilt]

/-- Claim C6 witness. -/
theorem single_verse_passage_witness :
    BiblePassageManager.verse (some "KJV") (assignPks 1 sampleData)
        (fun x => if x = "Genesis 1:2 KJV" then some ⟨1, 1, 2⟩ else none) "Genesis 1:2"
        = Except.ok (mkRow 2 ⟨1, 1, 2, "And the earth"⟩)
    ∧ BiblePassageManager.passage (some "KJV") (assignPks 1 sampleData)
        (fun a b =>
          if a = "Genesis 1:2 KJV" then (if b = "Genesis 1:2 KJV" then some 1 else none)
          else if a = "Genesis 1:1 KJV" then (if b = "Genesis 1:2 KJV" then some 2 else none)
          else none)
        "Genesis 1:2" none = Except.ok [mkRow 2 ⟨1, 1, 2, "And the earth"⟩]
    ∧ BiblePassageManager.passage (some "KJV") (assignPks 1 sampleData)
        (fun a b =>
          if a = "Genesis 1:2 KJV" then (if b = "Genesis 1:2 KJV" then some 1 else none)
          else if a = "Genesis 1:1 KJV" then (if b = "Genesis 1:2 KJV" then some 2 else none)
          else none)
        "Genesis 1:2" (some "Genesis 1:2") = Except.ok [mkRow 2 ⟨1, 1, 2, "And the earth"⟩] :=
  single_verse_passage (some "KJV") sampleData _ _ "Genesis 1:2" "Genesis 1:2 KJV"
    ⟨1, 1, 2⟩ (mkRow 2 ⟨1, 1, 2, "And the earth"⟩) 2 (by decide) (by decide) (by decide)
    (by decide) (by decide) (by decide)

/-- Claim C9: a reference that qualifies and parses to a (book, chapter,
verse) triple with no matching stored row makes `verse` fail with the Django
DoesNotExist error (the NotFound of the spec) - a distinguishable error
constructor, not a crash and not some other row. -/
theorem verse_not_found (translation : Option String) (store : List Row)
    (parse : String → Option ParsedVerse) (r s : String) (pv : ParsedVerse)
    (hq : qualifyRef translation r = Except.ok s)
    (hparse : parse s = some pv)
    (hnone : store.filter (matchRow pv) = []) :
    BiblePassageManager.verse translation store parse r = Except.error PyErr.doesNotExist := by
  simp [BiblePassageManager.verse, hq, hparse, pyGet, hnone]

/-- Claim C9 witness: Genesis 99:99 parses but is beyond the stored chapter
length, so resolution reports DoesNotExist. -/
theorem verse_not_found_witness :
    BiblePassageManager.verse none (assignPks 1 sampleData)
      (fun x => if x = "Genesis 99:99" then some ⟨1, 99, 99⟩ else none) "Genesis 99:99"
      = Except.error PyErr.doesNotExist :=
  verse_not_found none (assignPks 1 sampleData) _ "Genesis 99:99" "Genesis 99:99"
    ⟨1, 99, 99⟩ rfl (by decide) (by decide)

/-- Claim C4 counterexample: the claim says a failed ordinal-1 lookup makes
`prev_verse` return the none sentinel.  For a verse that is not Genesis 1:1
whose predecessor row is absent, the code instead raises DoesNotExist: the
lookup `get(pk=self.pk-1)` has no exception handler. -/
theorem prev_verse_missing_raises :
    VerseText.prev_verse [mkRow 5 ⟨2, 1, 1, "In the beginning"⟩]
        (mkRow 5 ⟨2, 1, 1, "In the beginning"⟩) = Except.error PyErr.doesNotExist
    ∧ VerseText.prev_verse [mkRow 5 ⟨2, 1, 1, "In the beginning"⟩]
        (mkRow 5 ⟨2, 1, 1, "In the beginning"⟩) ≠ Except.ok none := by
  decide

/-- Claim C4 amended: `prev_verse` returns the none sentinel exactly in the
explicitly checked first-verse case (book 1, chapter 1, verse 1) - and then
for ANY store, confirming the check happens before any lookup; for every
other verse a failed ordinal-1 lookup raises DoesNotExist instead of
returning the sentinel. -/
theorem prev_verse_amended (store : List Row) (v : Row) :
    ((v.book = 1 ∧ v.chapter = 1 ∧ v.verse = 1) → VerseText.prev_verse store v = Except.ok none)
    ∧ (¬ (v.book = 1 ∧ v.chapter = 1 ∧ v.verse = 1) →
        store.filter (fun r => decide (r.pk = v.pk - 1)) = [] →
        VerseText.prev_verse store v = Except.error PyErr.doesNotExist) := by
  constructor
  · intro h
    simp [VerseText.prev_verse, h]
  · intro h hf
    simp [VerseText.prev_verse, h, pyGet, hf]

/-- Claim C4 amended witness. -/
theorem prev_verse_amended_witness :
    VerseText.prev_verse [mkRow 2 ⟨1, 1, 2, "And the earth"⟩] (mkRow 1 ⟨1, 1, 1, "In the beginning"⟩)
        = Except.ok none
    ∧ VerseText.prev_verse [] (mkRow 9 ⟨3, 2, 4, "And God said"⟩)
        = Except.error PyErr.doesNotExist := by
  refine ⟨(prev_verse_amended _ _).1 (by decide), (prev_verse_amended _ _).2 (by decide) (by decide)⟩

/-- Claim C7: on a fully populated store (sequential primary keys from 1,
with the first row being book 1 chapter 1 verse 1), for every stored verse
`v` other than the first one, `prev_verse` succeeds with some verse `w` and
`next_verse w` gives back exactly `v`. -/
theorem next_prev_roundtrip (ds : List VerseData) (v : Row) (d0 : VerseData)
    (hd0 : ds.get? 0 = some d0)
    (h0 : d0.book = 1 ∧ d0.chapter = 1 ∧ d0.verse = 1)
    (hmem : v ∈ assignPks 1 ds)
    (hv : ¬ (v.book = 1 ∧ v.chapter = 1 ∧ v.verse = 1)) :
    ∃ w, VerseText.prev_verse (assignPks 1 ds) v = Except.ok (some w)
      ∧ VerseText.next_verse (assignPks 1 ds) w = Except.ok (some v) := by
  rcases of_mem_assignPks ds 1 hmem with ⟨i, d, hget, hr⟩
  cases i with
  | zero =>
    exfalso
    rw [hd0] at hget
    have hdd : d0 = d := Option.some.inj hget
    apply hv
    rw [hr, ← hdd]
    simpa using h0
  | succ j =>
    have hvpk : v.pk = j + 2 := by
      rw [hr, mkRow_pk]
      omega
    have hjlt : j < ds.length := by
      have := lt_of_get?_some hget
      omega
    rcases get?_some_of_lt ds j hjlt with ⟨d2, hget2⟩
    refine ⟨mkRow (j + 1) d2, ?_, ?_⟩
    · simp only [VerseText.prev_verse, pyGet]
      rw [if_neg hv]
      have hsub : v.pk - 1 = j + 1 := by omega
      simp only [hsub]
      rw [filter_pk_eq ds 1 (j + 1) d2 (by omega) (by simpa using hget2)]
    · simp only [VerseText.next_verse, pyGet, mkRow_pk]
      rw [filter_pk_eq ds 1 (j + 1 + 1) d (by omega) (by simpa using hget)]
      have hmk : mkRow (j + 1 + 1) d = v := by
        rw [hr]
        congr 1
        omega
      rw [hmk]

/-- Claim C7 witness. -/
theorem next_prev_roundtrip_witness :
    ∃ w, VerseText.prev_verse (assignPks 1 sampleData) (mkRow 2 ⟨1, 1, 2, "And the earth"⟩)
        = Except.ok (some w)
      ∧ VerseText.next_verse (assignPks 1 sampleData) w
        = Except.ok (some (mkRow 2 ⟨1, 1, 2, "And the earth"⟩)) :=
  next_prev_roundtrip sampleData (mkRow 2 ⟨1, 1, 2, "And the earth"⟩) ⟨1, 1, 1, "In the beginning"⟩
    rfl (by decide) (by decide) (by decide)

/-- Claim C2 counterexample: the claim states the translation code is
appended if and only if the last non-space word token of the text differs
from the translation code.  For the reference John 3:16 KJV against the
code KJV, the last word token IS the code, yet the code still appends
(its actual test compares the single character at index -3, here K, with
the whole code string).  So the biconditional fails at this input. -/
theorem qualify_last_token_counterexample :
    ¬ ((qualifyRef (some "KJV") "John 3:16 KJV"
          = Except.ok ("John 3:16 KJV" ++ " " ++ "KJV"))
        ↔ specLastWordToken "John 3:16 KJV" ≠ some "KJV") := by
  decide

/-- Claim C2 amended: for a model with a truthy translation code and a
reference of length at least 3 (shorter ones raise IndexError), the code is
appended if and only if the ONE-CHARACTER string at Python index -3 differs
from the translation code; consequently, for any translation code whose
length is not 1 - such as KJV - the code is always appended, even when the
reference already ends with it. -/
theorem qualify_appends_iff_char (t reference : String) (c : Char)
    (ht : t ≠ "")
    (hlen : 3 ≤ reference.length)
    (hc : reference.data.get? (reference.length - 3) = some c) :
    (qualifyRef (some t) reference =
        if String.mk [c] = t then Except.ok reference
        else Except.ok (reference ++ " " ++ t))
    ∧ (t.length ≠ 1 → qualifyRef (some t) reference = Except.ok (reference ++ " " ++ t)) := by
  have hchar : pyCharAtNeg3 reference = some c := by
    unfold pyCharAtNeg3
    rw [if_pos hlen]
    exact hc
  have hbase : qualifyRef (some t) reference =
      if String.mk [c] = t then Except.ok reference
      else Except.ok (reference ++ " " ++ t) := by
    simp only [qualifyRef, if_neg ht, hchar]
  refine ⟨hbase, ?_⟩
  intro h1
  have hne : String.mk [c] ≠ t := by
    intro he
    apply h1
    rw [← he]
    rfl
  rw [hbase, if_neg hne]

/-- Claim C2 amended witness: KJV is appended to John 3:16 KJV although the
reference already carries the qualifier. -/
theorem qualify_appends_iff_char_witness :
    qualifyRef (some "KJV") "John 3:16 KJV" = Except.ok ("John 3:16 KJV" ++ " " ++ "KJV") := by
  have h := qualify_appends_iff_char "KJV" "John 3:16 KJV" 'K' (by decide) (by decide) (by decide)
  exact h.2 (by decide)

theorem registerOne_mem (s : List Nat) (p : Nat) (h : p ∈ s) : registerOne s p = s := by
  simp [registerOne, h]

theorem mem_registerOne (s : List Nat) (p : Nat) : p ∈ registerOne s p := by
  by_cases hp : p ∈ s <;> simp [registerOne, hp]

/-- Claim C8: starting from any duplicate-free registry state, registering a
version keeps the registry duplicate-free with exactly one entry for that
version, leaves the count of every other entry unchanged, and any number of
repeated registrations of the same version afterwards is a no-op. -/
theorem register_version_idempotent (s : List Nat) (p : Nat) (h : s.Nodup) :
    (registerOne s p).Nodup
    ∧ (registerOne s p).count p = 1
    ∧ (∀ q, q ≠ p → (registerOne s p).count q = s.count q)
    ∧ (∀ k, register_version (some (registerOne s p)) (List.replicate k p) = registerOne s p) := by
  have hmem : p ∈ registerOne s p := mem_registerOne s p
  refine ⟨?_, ?_, ?_, ?_⟩
  · by_cases hp : p ∈ s
    · simpa [registerOne, hp] using h
    · rw [registerOne, if_neg hp, List.nodup_append]
      refine ⟨h, List.nodup_singleton p, ?_⟩
      intro a ha hap
      rw [List.mem_singleton] at hap
      subst hap
      exact hp ha
  · have hnd : (registerOne s p).Nodup := by
      by_cases hp : p ∈ s
      · simpa [registerOne, hp] using h
      · rw [registerOne, if_neg hp, List.nodup_append]
        refine ⟨h, List.nodup_singleton p, ?_⟩
        intro a ha hap
        rw [List.mem_singleton] at hap
        subst hap
        exact hp ha
    exact List.count_eq_one_of_mem hnd hmem
  · intro q hq
    by_cases hp : p ∈ s
    · rw [registerOne_mem s p hp]
    · rw [registerOne, if_neg hp, List.count_append]
      have : List.count q [p] = 0 := by
        simp [List.count_singleton']
        omega
      omega
  · intro k
    induction k with
    | zero => rfl
    | succ k ih =>
      rw [List.replicate_succ]
      show List.foldl registerOne (registerOne s p) (p :: List.replicate k p) = registerOne s p
      rw [List.foldl_cons, registerOne_mem (registerOne s p) p hmem]
      exact ih

/-- Claim C8 witness. -/
theorem register_version_idempotent_witness :
    (registerOne [3] 7).Nodup
    ∧ (registerOne [3] 7).count 7 = 1
    ∧ (registerOne [3] 7).count 3 = List.count 3 [3]
    ∧ register_version (some (registerOne [3] 7)) (List.replicate 5 7) = registerOne [3] 7 := by
  have h := register_version_idempotent [3] 7 (by decide)
  exact ⟨h.1, h.2.1, h.2.2.1 3 (by decide), h.2.2.2 5⟩

/-- Claim C10 counterexample: the claim says ANY reference string shorter
than 3 characters raises IndexError on either endpoint of `passage`.  But
an EMPTY end reference (length 0) is falsy in Python, so
`if not end_reference` replaces it with the start reference before the
index-(-3) test ever runs: here `passage` succeeds instead of raising. -/
theorem empty_end_reference_escapes :
    BiblePassageManager.passage (some "KJV") [] (fun _ _ => some 1) "John 3:16" (some "")
        = Except.ok []
    ∧ BiblePassageManager.passage (some "KJV") [] (fun _ _ => some 1) "John 3:16" (some "")
        ≠ Except.error PyErr.indexError := by
  decide

/-- Claim C10 amended: with a truthy translation code, a reference shorter
than 3 characters raises IndexError (before any parsing: the conclusion
holds for every parser) when it is the `verse` reference or the `passage`
start reference; it also does so as the `passage` end reference provided it
is nonempty - an empty end reference is instead replaced by the start
reference. -/
theorem short_reference_index_error (t : String) (store : List Row)
    (parse : String → Option ParsedVerse) (plen : String → String → Option Nat)
    (ref startRef s : String) (endRef : Option String)
    (ht : t ≠ "") (hshort : ref.length < 3) :
    BiblePassageManager.verse (some t) store parse ref = Except.error PyErr.indexError
    ∧ BiblePassageManager.passage (some t) store plen ref endRef = Except.error PyErr.indexError
    ∧ (ref ≠ "" → qualifyRef (some t) startRef = Except.ok s →
        BiblePassageManager.passage (some t) store plen startRef (some ref)
          = Except.error PyErr.indexError) := by
  have hq : qualifyRef (some t) ref = Except.error PyErr.indexError := by
    have hn3 : ¬ (3 ≤ ref.length) := by omega
    simp [qualifyRef, ht, pyCharAtNeg3, hn3]
  refine ⟨?_, ?_, ?_⟩
  · simp [BiblePassageManager.verse, hq]
  · simp [BiblePassageManager.passage, hq]
  · intro hne hqs
    have heff : effectiveEnd startRef (some ref) = ref := by
      simp [effectiveEnd, hne]
    simp [BiblePassageManager.passage, heff, hqs, hq]

/-- Claim C10 amended witness. -/
theorem short_reference_index_error_witness :
    BiblePassageManager.verse (some "KJV") [] (fun _ => none) "ab"
        = Except.error PyErr.indexError
    ∧ BiblePassageManager.passage (some "KJV") [] (fun _ _ => none) "ab" none
        = Except.error PyErr.indexError
    ∧ BiblePassageManager.passage (some "KJV") [] (fun _ _ => none) "John 3:16" (some "ab")
        = Except.error PyErr.indexError := by
  have h := short_reference_index_error "KJV" [] (fun _ => none) (fun _ _ => none)
    "ab" "John 3:16" "John 3:16 KJV" none (by decide) (by decide)
  exact ⟨h.1, h.2.1, h.2.2 (by decide) (by decide)⟩
